import Mathlib

/-!
Verification of the userns sandbox launcher (userns_sandbox.c,
userns_common.c, userns_overlay_probe.c) against its specification.

The C sources are shallowly embedded: pure computations become Lean
functions over Nat/String/List Char; syscall-dependent code is modelled by
explicit oracles (stat results, write results, mount results) threaded as
arguments; fatal `check()` failures become `Except`/`Option` error values
carrying the `_exit(1)` status.
-/

namespace Userns

/-! ## Wait-status decoding

glibc's wait-status macros over the raw status word, rewritten on Nat:
WIFEXITED(s)   = ((s & 0x7f) == 0),
WTERMSIG(s)    = (s & 0x7f),
WIFSIGNALED(s) = ((signed char)(((s & 0x7f) + 1) >> 1) > 0),
               which holds exactly when 1 <= (s & 0x7f) <= 126,
WEXITSTATUS(s) = ((s >> 8) & 0xff). -/

def WIFEXITED (s : Nat) : Bool := s % 128 == 0

def WTERMSIG (s : Nat) : Nat := s % 128

def WIFSIGNALED (s : Nat) : Bool := 1 ≤ s % 128 && s % 128 ≤ 126

def WEXITSTATUS (s : Nat) : Nat := s / 256 % 256

/-- The four little-endian bytes of a 32-bit value, as written by
`write(parent_pipe[1], &reported_exit_code, sizeof(unsigned int))`. -/
def le32 (n : Nat) : List Nat :=
  [n % 256, n / 256 % 256, n / 65536 % 256, n / 16777216 % 256]

/-- Reassembling the four bytes read by the supervisor from `parent_pipe`. -/
def de32 : List Nat → Nat
  | [b0, b1, b2, b3] => b0 + 256 * b1 + 65536 * b2 + 16777216 * b3
  | _ => 0

/-- Signals whose default disposition on Linux (x86-64 numbering) does not
terminate the process: SIGCHLD, SIGCONT, SIGSTOP, SIGTSTP, SIGTTIN,
SIGTTOU, SIGURG, SIGWINCH.  Environment model for the `raise()` call in
`main`: raising any other signal with SIG_DFL disposition kills the
process. -/
def nonFatalDefaultSignals : List Nat := [17, 18, 19, 20, 21, 22, 23, 28]

def sigDefaultTerminates (s : Nat) : Bool := !(nonFatalDefaultSignals.contains s)

/-- The reap step of `sandbox_main` (userns_sandbox.c:613-639) when
`waitpid` has returned the target `child_pid` with wait status `status`:
if the target died of a signal, write `256 + WTERMSIG(status)` as four
bytes to the parent pipe and return 0; if it exited normally, write
`WEXITSTATUS(status)` and return 0; any other status is `check(-1)`,
which aborts (`none`).  The result is (bytes written, return value). -/
def sandboxReap (status : Nat) : Option (List Nat × Nat) :=
  if WIFSIGNALED status then some (le32 (256 + WTERMSIG status), 0)
  else if WIFEXITED status then some (le32 (WEXITSTATUS status), 0)
  else none

inductive SupOutcome
  | exited (c : Nat)
  | signaled (s : Nat)
  | aborted
deriving DecidableEq

/-- The tail of the supervisor's `main` (userns_sandbox.c:966-996): after
`waitpid` on the inner pid yields `innerStatus` and the four-byte read
from `parent_pipe` yields `code`, the supervisor asserts the inner init
exited with status 0 (`check(WIFEXITED(status)); check(WEXITSTATUS(status)
== 0)`, failure aborts), then: a code `>= 256` makes it reset the
disposition of signal `code - 256` to SIG_DFL and `raise` it on itself --
if that signal's default terminates, the supervisor dies of it; otherwise
`raise` returns 0 and `check(raise(child_signal))` aborts with status 1.
A code `< 256` is returned as the exit status. -/
def supervisorReport (innerStatus code : Nat) : SupOutcome :=
  if !(WIFEXITED innerStatus) then .aborted
  else if WEXITSTATUS innerStatus != 0 then .aborted
  else if 256 ≤ code then
    if sigDefaultTerminates (code - 256) then .signaled (code - 256)
    else .aborted
  else .exited code

/-- End-to-end composition: the target's wait status is reaped by the
container-init, whose `sandbox_main` then returns the reap step's return
value, so the inner wait status seen by the supervisor is `ret * 256`;
the supervisor decodes the four pipe bytes and reports.  If the reaper
aborted, the inner init `_exit(1)`s without writing, the supervisor's
four-byte read fails and its `check` aborts. -/
def superviseTarget (targetStatus : Nat) : SupOutcome :=
  match sandboxReap targetStatus with
  | some (bytes, ret) => supervisorReport (ret * 256) (de32 bytes)
  | none => .aborted

/-! ## configure_user_namespace (userns_common.c:158-189,
userns_sandbox.c:230-261) -/

/-- Rendering of a `uid_t`/`gid_t` (unsigned 32-bit) through printf `%d`,
which reinterprets the value as a signed int. -/
def printfD (n : Nat) : String :=
  if n < 2147483648 then toString n else "-" ++ toString (4294967296 - n)

structure ProcWrite where
  file : String
  data : String
deriving DecidableEq

/-- Line `snprintf(uidmap, ..., "%d\t%d\t1\n", dst_uid, src_uid)`. -/
def uidMapLine (dst src : Nat) : String :=
  printfD dst ++ "\t" ++ printfD src ++ "\t1\n"

/-- Line `snprintf(gidmap, ..., "%d\t%d\t1", dst_gid, src_gid)` -- no newline. -/
def gidMapLine (dst src : Nat) : String :=
  printfD dst ++ "\t" ++ printfD src ++ "\t1"

/-- Buffer `char deny[] = "deny";` written with `sizeof(deny)` = 5 bytes,
trailing NUL included. -/
def setgroupsDeny : String := "deny\x00"

/-- The three `/proc/<pid>/...` writes of `configure_user_namespace`, in
source order: uid_map, setgroups, gid_map. -/
def cunWrites (dst_uid src_uid dst_gid src_gid : Nat) : List ProcWrite :=
  [⟨"uid_map", uidMapLine dst_uid src_uid⟩,
   ⟨"setgroups", setgroupsDeny⟩,
   ⟨"gid_map", gidMapLine dst_gid src_gid⟩]

/-- Executes a write list against a write-result oracle `wres` (the value
returned by the i-th `write` call).  Each write is guarded by
`check(write(...) == nbytes)`: the first mismatch aborts the process with
`_exit(1)`. -/
def runProcWrites (wres : Nat → Int) : Nat → List ProcWrite → Except Nat (List ProcWrite)
  | _, [] => .ok []
  | i, w :: ws =>
    if wres i = (w.data.length : Int) then
      match runProcWrites wres (i + 1) ws with
      | .ok rest => .ok (w :: rest)
      | .error e => .error e
    else .error 1

def configure_user_namespace (wres : Nat → Int) (dst_uid src_uid dst_gid src_gid : Nat) :
    Except Nat (List ProcWrite) :=
  runProcWrites wres 0 (cunWrites dst_uid src_uid dst_gid src_gid)

/-! ## mount_the_world (userns_sandbox.c:483-545) as an event trace

Each mount primitive invocation is recorded as one event, in program
order.  A mount list (`struct map_list`) is represented as the List of
`(map_path, outside_path)` pairs read off from the C list head following
the `prev` links; since the parser prepends, the head is the most
recently declared entry. -/

inductive WorldEvent
  | tmpfsOnProc (size : String)
  | overlayRootfs (root workdir : String)
  | procfsAt (root : String)
  | bindMountAt (outside inside : String) (readOnly : Bool)
  | devAt (root : String)
deriving DecidableEq

/-- Loop `while (inside[0] == '/') inside = inside + 1;` in `mount_maps`. -/
def stripLeadingSlashes (s : String) : String := ⟨s.data.dropWhile (· == '/')⟩

/-- Function `mount_maps` (userns_sandbox.c:456-473): walk the linked list from the
head, bind-mounting `outside_path` onto `<dest>/<stripped map_path>`. -/
def mount_maps (dest : String) (entries : List (String × String)) (readOnly : Bool) :
    List WorldEvent :=
  entries.map fun e =>
    .bindMountAt e.2 (dest ++ "/" ++ stripLeadingSlashes e.1) readOnly

/-- Function `mount_the_world`: with `persist_dir == NULL` it is set to "/proc" and
a tmpfs is mounted there; then the rootfs overlay; then, when the work
directory is "/proc", procfs is re-mounted at "" (i.e. host /proc); then
the read-only maps; then procfs at `<root>/proc`; then /dev; then the
read-write workspaces. -/
def mount_the_world (root : String) (shardMaps workspaces : List (String × String))
    (persist : Option String) (tmpfsSize : String) : List WorldEvent :=
  let pd := persist.getD "/proc"
  (if persist.isNone then [WorldEvent.tmpfsOnProc tmpfsSize] else [])
    ++ [WorldEvent.overlayRootfs root pd]
    ++ (if pd == "/proc" then [WorldEvent.procfsAt ""] else [])
    ++ mount_maps root shardMaps true
    ++ [WorldEvent.procfsAt root]
    ++ [WorldEvent.devAt root]
    ++ mount_maps root workspaces false

/-- The parser's list construction: each accepted `--map`/`--workspace`
is prepended (`entry->prev = maps; maps = entry;`), so a declaration-order
list becomes this accumulator. -/
def prependAll (declared : List (String × String)) : List (String × String) :=
  declared.foldl (fun acc d => d :: acc) []

/-- The mount sequence CLAIMED by the spec sentence "For each MountSpec in
order ... bind-mount `outside_path` there" with all user binds before
procfs and /dev.  This definition follows the spec's words (declaration
order, binds first) for comparison against `mount_the_world`; it is not a
translation of the source. -/
def claimedWorldOrder (root : String) (declaredMounts : List (String × String × Bool)) :
    List WorldEvent :=
  (declaredMounts.map fun m =>
      WorldEvent.bindMountAt m.2.1 (root ++ "/" ++ stripLeadingSlashes m.1) m.2.2)
    ++ [WorldEvent.procfsAt root, WorldEvent.devAt root]

/-! ## CLI parsing and the early-exit paths of `main`
(userns_sandbox.c:657-895)

GNU `getopt_long` with the default permutation behaviour: option
arguments are processed in their relative order and the non-option
arguments form the command vector.  One token per argv entry. -/

inductive CliTok
  | optHelp
  | optVerbose
  | optUnknown (s : String)
  | optRootfs (v : String)
  | optWorkspace (v : String)
  | optMap (v : String)
  | optPersist (v : String)
  | optCd (v : String)
  | optUid (v : String)
  | optGid (v : String)
  | optTmpfsSize (v : String)
  | optHostname (v : String)
  | optEntrypoint (v : String)
  | positional (s : String)
deriving DecidableEq

structure SandboxCfg where
  rootfs : Option String := none
  cd : Option String := none
  maps : List (String × String) := []
  workspaces : List (String × String) := []
  persist : Option String := none
  entry : Option String := none
  dstUidArg : Option String := none
  dstGidArg : Option String := none
  tmpfsSize : String := "1G"
  hostname : Option String := none
deriving DecidableEq

/-- Option `--rootfs` handling: strip one trailing slash
(`if (sandbox_root[len-1] == '/') sandbox_root[len-1] = 0;`). -/
def stripOneTrailingSlash (s : String) : String :=
  match s.data.getLast? with
  | some '/' => ⟨s.data.dropLast⟩
  | _ => s

/-- Call `strchr(optarg, ':')`: split at the FIRST colon; `none` when there is
no colon (then `check(colon != NULL)` aborts). -/
def splitColon (v : String) : Option (String × String) :=
  match v.data.findIdx? (· == ':') with
  | none => none
  | some i => some (⟨v.data.take i⟩, ⟨v.data.drop (i + 1)⟩)

/-- Byte-wise string prefix test (`strncmp(s, p, strlen p) == 0`). -/
def strStartsWith (s p : String) : Bool :=
  s.data.take p.data.length == p.data

/-- The acceptance test on the outside path of a mount spec:
`if ((from[0] != '/') && (strncmp(from, "9p/", 3) != 0)) ... Ignoring`. -/
def acceptOutside (f : String) : Bool :=
  strStartsWith f "/" || strStartsWith f "9p/"

inductive EarlyExit
  | helpExit
  | abortCheck
deriving DecidableEq

/-- One `--map` (isMap) or `--workspace` option: no colon aborts; a
rejected outside path prints a diagnostic and leaves the lists unchanged
(the `break` leaves the switch and parsing continues); an accepted pair
is prepended to the matching list. -/
def addMapSpec (cfg : SandboxCfg) (isMap : Bool) (v : String) :
    Except EarlyExit SandboxCfg :=
  match splitColon v with
  | none => .error .abortCheck
  | some (f, t) =>
    if acceptOutside f then
      if isMap then .ok { cfg with maps := (t, f) :: cfg.maps }
      else .ok { cfg with workspaces := (t, f) :: cfg.workspaces }
    else .ok cfg

/-- One iteration of the getopt loop.  `case '?': case 'h':` both run
`print_help(); return 0;`.  Positionals are permuted out by getopt and
do not touch the state. -/
def optStep (cfg : SandboxCfg) : CliTok → Except EarlyExit SandboxCfg
  | .optHelp => .error .helpExit
  | .optUnknown _ => .error .helpExit
  | .optVerbose => .ok cfg
  | .optRootfs v => .ok { cfg with rootfs := some (stripOneTrailingSlash v) }
  | .optCd v => .ok { cfg with cd := some v }
  | .optWorkspace v => addMapSpec cfg false v
  | .optMap v => addMapSpec cfg true v
  | .optPersist v => .ok { cfg with persist := some v }
  | .optUid v => .ok { cfg with dstUidArg := some v }
  | .optGid v => .ok { cfg with dstGidArg := some v }
  | .optTmpfsSize v => .ok { cfg with tmpfsSize := v }
  | .optHostname v => .ok { cfg with hostname := some v }
  | .optEntrypoint v => .ok { cfg with entry := some v }
  | .positional _ => .ok cfg

def runOpts : SandboxCfg → List CliTok → Except EarlyExit SandboxCfg
  | cfg, [] => .ok cfg
  | cfg, t :: ts =>
    match optStep cfg t with
    | .error e => .error e
    | .ok cfg2 => runOpts cfg2 ts

def positionalsOf (toks : List CliTok) : List String :=
  toks.filterMap fun t =>
    match t with
    | .positional s => some s
    | _ => none

inductive MainOutcome
  | exitWith (usageBanner : Bool) (code : Nat)
  | proceed (cfg : SandboxCfg) (cmd : List String)
deriving DecidableEq

/-- The configuration phase of `main`, up to (but not including) the first
sandbox-construction syscall (`pipe`/`unshare`/`clone` only happen on
`proceed`): run the option loop (help or an unrecognized flag prints the
usage banner and returns 0; a colon-less mount spec aborts with 1 and no
banner), then prepend the entrypoint, then `return 1` after the banner
when the command vector is empty or `--rootfs` was never given. -/
def sandboxMainParse (toks : List CliTok) : MainOutcome :=
  match runOpts {} toks with
  | .error .helpExit => .exitWith true 0
  | .error .abortCheck => .exitWith false 1
  | .ok cfg =>
    let cmd := match cfg.entry with
      | some e => e :: positionalsOf toks
      | none => positionalsOf toks
    if cmd.isEmpty then .exitWith true 1
    else match cfg.rootfs with
      | none => .exitWith true 1
      | some _ => .proceed cfg cmd

/-! ## The overlay probe's inner process
(userns_overlay_probe.c:129-181, supervisor tail 209-214) -/

/-- Syscall results observed by one run of the probe's inner process. -/
structure ProbeEnv where
  parentIsDir : Bool
  tmpfsOk : Bool
  overlayOk : Bool
  renameOk : Bool
  umountRootfsOk : Bool
  umountProbeOk : Bool
deriving DecidableEq

/-- The probe's inner process after release: missing parent directory
returns 1; a failed tmpfs mount (when requested) aborts via `check`
(exit 1); `ret = mount_overlay(...)`, and on success the
`rename(rootfs/src, rootfs/dst)` result downgrades `ret`; the umount
`check`s abort on failure; finally `TRUEFALSE_EXITCODE(ret)`:
0 when ret is TRUE, else 1. -/
def probeInner (useTmpfs : Bool) (env : ProbeEnv) : Nat :=
  if env.parentIsDir = false then 1
  else if useTmpfs && !env.tmpfsOk then 1
  else
    let ret := env.overlayOk && env.renameOk
    if !env.umountRootfsOk then 1
    else if useTmpfs && !env.umountProbeOk then 1
    else if ret then 0 else 1

/-- The probe supervisor's tail: `check(WIFEXITED(status))` (abort when
the inner died of a signal), then `return WEXITSTATUS(status)`. -/
def probeSupervisor (innerStatus : Nat) : Option Nat :=
  if WIFEXITED innerStatus then some (WEXITSTATUS innerStatus) else none

/-! ## hashed_basename (userns_common.c:95-108) -/

/-- One step of the byte-at-a-time Murmur-style mix:
`h ^= *str; h *= 0x5bd1e995; h ^= h >> 15;` on a 32-bit unsigned. -/
def murmurStep (h b : Nat) : Nat :=
  let h1 := ((h ^^^ b) * 0x5bd1e995) % 4294967296
  h1 ^^^ (h1 >>> 15)

/-- Function `string_hash(str, h)`: fold the mix over the bytes of the string. -/
def string_hash (s : String) (h0 : Nat) : Nat :=
  s.data.foldl (fun h c => murmurStep h c.toNat) h0

/-- printf `%x`: lowercase hexadecimal, no leading zeros. -/
def hexStr (n : Nat) : String := ⟨Nat.toDigits 16 n⟩

/-- XPG `basename(3)`: all-slash strings give "/" ("." for empty),
otherwise the last component after stripping trailing slashes. -/
def basenameStr (s : String) : String :=
  let cs := s.data
  if cs.all (· == '/') then (if cs.isEmpty then "." else "/")
  else ⟨((cs.reverse.dropWhile (· == '/')).takeWhile (· != '/')).reverse⟩

/-- Function `hashed_basename`: `sprintf(output, "%s-%x", basename(path),
string_hash(path, 0x5f3759df))`.  The hash reads the full path; basename
is taken afterwards. -/
def hashed_basename (path : String) : String :=
  basenameStr path ++ "-" ++ hexStr (string_hash path 0x5f3759df)

/-! ## isdir / islink (userns_common.c:62-78, userns_sandbox.c:165-181) -/

def ENOENT : Nat := 2
def ENOTDIR : Nat := 20
def S_IFMT : Nat := 0xF000
def S_IFDIR : Nat := 0x4000
def S_IFLNK : Nat := 0xA000

def S_ISDIR (m : Nat) : Bool := m &&& S_IFMT == S_IFDIR
def S_ISLNK (m : Nat) : Bool := m &&& S_IFMT == S_IFLNK

inductive StatOutcome
  | ok (mode : Nat)
  | err (errno : Nat)
deriving DecidableEq

/-- Function `isdir`: the local `struct stat path_stat;` is NOT initialized.  When `stat`
fails, `check` tolerates ENOENT/ENOTDIR and the function then reads
`path_stat.st_mode`, i.e. whatever was on the stack -- modelled by the
`leftover` parameter.  Any other errno fails the `check` (exit 1). -/
def isdir (res : StatOutcome) (leftover : Nat) : Except Nat Bool :=
  match res with
  | .ok m => .ok (S_ISDIR m)
  | .err e => if e == ENOENT || e == ENOTDIR then .ok (S_ISDIR leftover) else .error 1

/-- Function `islink`, same structure as `isdir` with S_ISLNK. -/
def islink (res : StatOutcome) (leftover : Nat) : Except Nat Bool :=
  match res with
  | .ok m => .ok (S_ISLNK m)
  | .err e => if e == ENOENT || e == ENOTDIR then .ok (S_ISLNK leftover) else .error 1

/-! ## mkpath (userns_common.c:42-60) and glibc dirname -/

/-- Strip trailing '/' characters. -/
def dropTrailingSlashes (l : List Char) : List Char :=
  (l.reverse.dropWhile (· == '/')).reverse

/-- Remove the final path component, keeping the slash run before it. -/
def dropLastComponent (l : List Char) : List Char :=
  (l.reverse.dropWhile (· != '/')).reverse

/-- glibc `dirname(3)`: no slash gives "."; an all-slash string gives
"//" when of length exactly 2, else "/"; a string whose only slashes are
trailing gives "."; otherwise cut before the slash run that precedes the
last component, with the XBD "//" special case. -/
def dirnameL (s : List Char) : List Char :=
  if '/' ∈ s then
    let t := dropTrailingSlashes s
    if t = [] then
      if s.length = 2 then ['/', '/'] else ['/']
    else if '/' ∈ t then
      let v := dropLastComponent t
      let u := dropTrailingSlashes v
      if u = [] then
        if v = ['/', '/'] then ['/', '/'] else ['/']
      else u
    else ['.']
  else ['.']

/-- The fixed points of glibc dirname. -/
def isDirnameFixed (s : List Char) : Bool :=
  s == ['.'] || s == ['/'] || s == ['/', '/']

/-- Function `mkpath(dir)` with an `opendir`-success oracle `env` and explicit
fuel: when `opendir(dir)` succeeds, back out; otherwise recurse on
`dirname(dir)` FIRST and only then `mkdir(dir)`.  The value is the list
of `mkdir` targets in call order; `none` means the fuel was exhausted,
i.e. the C recursion does not terminate within that depth. -/
def mkpathFuel : Nat → (List Char → Bool) → List Char → Option (List (List Char))
  | 0, _, _ => none
  | n + 1, env, s =>
    if env s then some []
    else (mkpathFuel n env (dirnameL s)).map (· ++ [s])

/-- Termination of the mkpath recursion on input `s` under oracle `env`. -/
def mkpathTerminates (env : List Char → Bool) (s : List Char) : Prop :=
  ∃ n, (mkpathFuel n env s).isSome

/-! ## Helper lemmas -/

theorem de32_le32 (n : Nat) (h : n < 4294967296) : de32 (le32 n) = n := by
  simp only [de32, le32]
  omega

theorem setgroupsDeny_length : setgroupsDeny.length = 5 := by decide

/-! ## Claim theorems -/

/-- Claim C1: for a target that exits normally with code c in 0..255, the
container-init's reaper writes c as a four-byte value to the parent pipe
and returns 0, and the supervisor, after waitpid on the inner pid, reads
those bytes and exits with code exactly c. -/
theorem exit_code_fidelity_normal (σ c : Nat)
    (hex : WIFEXITED σ = true) (hc : WEXITSTATUS σ = c) :
    sandboxReap σ = some (le32 c, 0) ∧ c < 256 ∧
      superviseTarget σ = SupOutcome.exited c := by
  have h0 : σ % 128 = 0 := by simpa [WIFEXITED] using hex
  have hsig : WIFSIGNALED σ = false := by simp [WIFSIGNALED, h0]
  have hreap : sandboxReap σ = some (le32 c, 0) := by
    simp [sandboxReap, hsig, hex, hc]
  have hlt : c < 256 := by
    subst hc; unfold WEXITSTATUS; omega
  refine ⟨hreap, hlt, ?_⟩
  have hde : de32 (le32 c) = c := de32_le32 c (by omega)
  simp [superviseTarget, hreap, supervisorReport, hde, WIFEXITED, WEXITSTATUS]
  omega

theorem exit_code_fidelity_normal_witness :
    sandboxReap (42 * 256) = some (le32 42, 0) ∧ 42 < 256 ∧
      superviseTarget (42 * 256) = SupOutcome.exited 42 :=
  exit_code_fidelity_normal (42 * 256) 42 (by decide) (by decide)

/-- Claim C2: for a target killed by signal s (whose default disposition
terminates -- the only signals a process can be killed by), the
container-init writes 256+s to the parent pipe, and the supervisor, on
reading a code at least 256, restores the default disposition of signal
code-256 and raises it on itself, dying of signal s. -/
theorem exit_code_fidelity_signal (σ s : Nat)
    (hsig : WIFSIGNALED σ = true) (hts : WTERMSIG σ = s)
    (hdf : sigDefaultTerminates s = true) :
    sandboxReap σ = some (le32 (256 + s), 0) ∧
      superviseTarget σ = SupOutcome.signaled s := by
  have hreap : sandboxReap σ = some (le32 (256 + s), 0) := by
    simp [sandboxReap, hsig, hts]
  refine ⟨hreap, ?_⟩
  have hs : s < 128 := by
    subst hts; unfold WTERMSIG; omega
  have hde : de32 (le32 (256 + s)) = 256 + s := de32_le32 _ (by omega)
  simp [superviseTarget, hreap, supervisorReport, hde, WIFEXITED, WEXITSTATUS, hdf]

theorem exit_code_fidelity_signal_witness :
    sandboxReap 15 = some (le32 (256 + 15), 0) ∧
      superviseTarget 15 = SupOutcome.signaled 15 :=
  exit_code_fidelity_signal 15 15 (by decide) (by decide) (by decide)

/-- Claim C4: configure_user_namespace performs exactly the three writes
uid_map, setgroups, gid_map, in that order; the uid_map line is
"dst TAB src TAB 1 NEWLINE", setgroups is the 5-byte "deny" with trailing
NUL, the gid_map line has no trailing newline (range length 1 in both
maps); a short or failed write at any of the three positions aborts with
exit status 1. -/
theorem user_namespace_writes (du su dg sg : Nat)
    (hdu : du < 2147483648) (hsu : su < 2147483648)
    (hdg : dg < 2147483648) (hsg : sg < 2147483648) :
    cunWrites du su dg sg =
      [⟨"uid_map", toString du ++ "\t" ++ toString su ++ "\t1\n"⟩,
       ⟨"setgroups", "deny\x00"⟩,
       ⟨"gid_map", toString dg ++ "\t" ++ toString sg ++ "\t1"⟩]
    ∧ setgroupsDeny.length = 5
    ∧ (∀ wres : Nat → Int,
        wres 0 = ((uidMapLine du su).length : Int) →
        wres 1 = 5 →
        wres 2 = ((gidMapLine dg sg).length : Int) →
        configure_user_namespace wres du su dg sg = .ok (cunWrites du su dg sg))
    ∧ (∀ wres : Nat → Int, wres 0 ≠ ((uidMapLine du su).length : Int) →
        configure_user_namespace wres du su dg sg = .error 1)
    ∧ (∀ wres : Nat → Int, wres 0 = ((uidMapLine du su).length : Int) →
        wres 1 ≠ 5 →
        configure_user_namespace wres du su dg sg = .error 1)
    ∧ (∀ wres : Nat → Int, wres 0 = ((uidMapLine du su).length : Int) →
        wres 1 = 5 → wres 2 ≠ ((gidMapLine dg sg).length : Int) →
        configure_user_namespace wres du su dg sg = .error 1) := by
  have hlen5 : (setgroupsDeny.length : Int) = 5 := by decide
  refine ⟨?_, setgroupsDeny_length, ?_, ?_, ?_, ?_⟩
  · simp [cunWrites, uidMapLine, gidMapLine, printfD, hdu, hsu, hdg, hsg, setgroupsDeny]
  · intro wres h0 h1 h2
    simp [configure_user_namespace, cunWrites, runProcWrites, h0, h1, h2, hlen5]
  · intro wres h0
    simp [configure_user_namespace, cunWrites, runProcWrites, h0]
  · intro wres h0 h1
    simp [configure_user_namespace, cunWrites, runProcWrites, h0, h1, hlen5]
  · intro wres h0 h1 h2
    simp [configure_user_namespace, cunWrites, runProcWrites, h0, h1, h2, hlen5]

theorem user_namespace_writes_witness :
    configure_user_namespace
        (fun i => if i == 0 then 12 else if i == 1 then 5 else 11)
        1000 1001 1002 1003
      = .ok (cunWrites 1000 1001 1002 1003)
    ∧ cunWrites 1000 1001 1002 1003 =
        [⟨"uid_map", "1000\t1001\t1\n"⟩, ⟨"setgroups", "deny\x00"⟩,
         ⟨"gid_map", "1002\t1003\t1"⟩] := by
  have h := user_namespace_writes 1000 1001 1002 1003
    (by decide) (by decide) (by decide) (by decide)
  refine ⟨h.2.2.1 _ (by decide) (by decide) (by decide), ?_⟩
  rw [h.1]
  rfl

theorem foldl_prepend (l : List (String × String)) (acc : List (String × String)) :
    l.foldl (fun acc d => d :: acc) acc = l.reverse ++ acc := by
  induction l generalizing acc with
  | nil => simp
  | cons a l ih => simp [List.foldl_cons, ih]

theorem prependAll_eq_reverse (l : List (String × String)) :
    prependAll l = l.reverse := by
  simp [prependAll, foldl_prepend]

/-- Claim C3 counterexample: two read-only maps declared in the order
o1, o2 plus one workspace are NOT mounted in declaration order before
procfs and /dev; the maps are bound in reverse order and the workspace is
bound after /dev. -/
theorem mount_order_spec_counterexample :
    mount_the_world "/r" (prependAll [("/ro1", "/o1"), ("/ro2", "/o2")])
        (prependAll [("/w", "/ow")]) (some "/work") "1G"
      ≠ claimedWorldOrder "/r"
          [("/ro1", ("/o1", true)), ("/ro2", ("/o2", true)),
           ("/w", ("/ow", false))] := by
  decide

/-- Claim C3 amended: mount_the_world binds the `--map` specs in REVERSE
declaration order (the parser prepends and mount_maps walks from the
head), all before procfs and /dev; the `--workspace` specs are bound,
also in reverse declaration order, AFTER procfs and /dev. -/
theorem mount_order_actual (root tsize persistP : String)
    (declMaps declWs : List (String × String)) :
    mount_the_world root (prependAll declMaps) (prependAll declWs)
        (some persistP) tsize =
      [WorldEvent.overlayRootfs root persistP]
        ++ (if persistP == "/proc" then [WorldEvent.procfsAt ""] else [])
        ++ (declMaps.map fun e =>
              WorldEvent.bindMountAt e.2
                (root ++ "/" ++ stripLeadingSlashes e.1) true).reverse
        ++ [WorldEvent.procfsAt root, WorldEvent.devAt root]
        ++ (declWs.map fun e =>
              WorldEvent.bindMountAt e.2
                (root ++ "/" ++ stripLeadingSlashes e.1) false).reverse
    ∧ mount_the_world root (prependAll declMaps) (prependAll declWs)
        none tsize =
      [WorldEvent.tmpfsOnProc tsize,
       WorldEvent.overlayRootfs root "/proc", WorldEvent.procfsAt ""]
        ++ (declMaps.map fun e =>
              WorldEvent.bindMountAt e.2
                (root ++ "/" ++ stripLeadingSlashes e.1) true).reverse
        ++ [WorldEvent.procfsAt root, WorldEvent.devAt root]
        ++ (declWs.map fun e =>
              WorldEvent.bindMountAt e.2
                (root ++ "/" ++ stripLeadingSlashes e.1) false).reverse := by
  constructor <;>
    simp [mount_the_world, mount_maps, prependAll_eq_reverse, List.map_reverse]

/-- Claim C5 counterexample: the outside path "9p/x" does not begin with
a slash, yet the spec is accepted into the mount list, because the parser
also admits the "9p/" prefix. -/
theorem mount_spec_9p_counterexample :
    strStartsWith "9p/x" "/" = false
    ∧ optStep {} (CliTok.optMap "9p/x:/y") =
        .ok { maps := [("/y", "9p/x")] } := by
  exact ⟨by decide, rfl⟩

/-- Claim C5 amended: a `--map`/`--workspace` outside path is accepted
exactly when it begins with "/" or with "9p/"; a rejected spec leaves the
lists untouched (diagnostic printed, parsing continues) and an accepted
one is prepended to the corresponding list. -/
theorem mount_spec_filtering (cfg : SandboxCfg) (v f t : String)
    (hsplit : splitColon v = some (f, t)) :
    (acceptOutside f = (strStartsWith f "/" || strStartsWith f "9p/"))
    ∧ (acceptOutside f = false →
        optStep cfg (CliTok.optMap v) = .ok cfg
        ∧ optStep cfg (CliTok.optWorkspace v) = .ok cfg)
    ∧ (acceptOutside f = true →
        optStep cfg (CliTok.optMap v) = .ok { cfg with maps := (t, f) :: cfg.maps }
        ∧ optStep cfg (CliTok.optWorkspace v) =
            .ok { cfg with workspaces := (t, f) :: cfg.workspaces }) := by
  refine ⟨rfl, ?_, ?_⟩ <;> intro h <;>
    simp [optStep, addMapSpec, hsplit, h]

theorem mount_spec_filtering_witness :
    optStep {} (CliTok.optMap "/o:/i") = .ok { maps := [("/i", "/o")] }
    ∧ optStep {} (CliTok.optMap "rel/x:/y") = .ok ({} : SandboxCfg) := by
  have h1 := mount_spec_filtering {} "/o:/i" "/o" "/i" (by decide)
  have h2 := mount_spec_filtering {} "rel/x:/y" "rel/x" "/y" (by decide)
  exact ⟨(h1.2.2 (by decide)).1, (h2.2.1 (by decide)).1⟩

theorem runOpts_append (l1 l2 : List CliTok) (cfg : SandboxCfg) :
    runOpts cfg (l1 ++ l2) =
      match runOpts cfg l1 with
      | .ok c => runOpts c l2
      | .error e => .error e := by
  induction l1 generalizing cfg with
  | nil => simp [runOpts]
  | cons a l ih =>
    simp only [List.cons_append, runOpts]
    cases optStep cfg a with
    | error e => rfl
    | ok c => exact ih c

/-- Claim C7 counterexample: an invocation with an unrecognized flag (and
otherwise complete configuration) prints the usage banner but exits with
status 0, not 1. -/
theorem config_error_exit0_counterexample :
    sandboxMainParse [CliTok.optUnknown "frobnicate", CliTok.optRootfs "/r",
        CliTok.positional "/bin/sh"] = .exitWith true 0
    ∧ sandboxMainParse [CliTok.optUnknown "frobnicate", CliTok.optRootfs "/r",
        CliTok.positional "/bin/sh"] ≠ .exitWith true 1 := by
  constructor
  · decide
  · decide

/-- Claim C7 amended: every configuration error exits before any
sandbox-construction syscall (the outcome is exitWith, never proceed):
an unrecognized flag prints the usage banner and exits 0 (the source
shares `case '?'` with `case 'h'`); a missing command vector or a missing
--rootfs prints the banner and exits 1. -/
theorem config_errors_exit_early (pre post toks : List CliTok) (s : String)
    (cfg : SandboxCfg) :
    (runOpts {} pre = .ok cfg →
      sandboxMainParse (pre ++ CliTok.optUnknown s :: post) = .exitWith true 0)
    ∧ (runOpts {} toks = .ok cfg → cfg.entry = none → positionalsOf toks = [] →
        sandboxMainParse toks = .exitWith true 1)
    ∧ (runOpts {} toks = .ok cfg → cfg.rootfs = none →
        positionalsOf toks ≠ [] →
        sandboxMainParse toks = .exitWith true 1) := by
  refine ⟨?_, ?_, ?_⟩
  · intro h
    have hrun : runOpts ({} : SandboxCfg) (pre ++ CliTok.optUnknown s :: post)
        = .error .helpExit := by
      rw [runOpts_append, h]
      simp [runOpts, optStep]
    simp [sandboxMainParse, hrun]
  · intro h he hp
    simp [sandboxMainParse, h, he, hp]
  · intro h hr hp
    cases hent : cfg.entry with
    | none => simp [sandboxMainParse, h, hent, hp, hr]
    | some e => simp [sandboxMainParse, h, hent, hr]

theorem config_errors_exit_early_witness :
    sandboxMainParse [CliTok.optUnknown "zzz"] = .exitWith true 0
    ∧ sandboxMainParse [CliTok.optRootfs "/r"] = .exitWith true 1
    ∧ sandboxMainParse [CliTok.positional "ls"] = .exitWith true 1 := by
  refine ⟨?_, ?_, ?_⟩
  · exact (config_errors_exit_early [] [] [] "zzz" {}).1 rfl
  · exact (config_errors_exit_early [] [] [CliTok.optRootfs "/r"] "zzz"
      { rootfs := some "/r" }).2.1 rfl rfl rfl
  · exact (config_errors_exit_early [] [] [CliTok.positional "ls"] "zzz" {}).2.2
      rfl rfl (by decide)

/-- Claim C6: when the probe's inner process gets past its preconditions
(the work-parent directory exists, the optional tmpfs mount succeeds, the
final umount checks succeed), it exits 0 exactly when the overlay mount
of the rootfs over itself succeeds AND the rename of rootfs/src to
rootfs/dst succeeds; any probed failure exits 1; and the probe supervisor
returns the inner process's exit status unchanged. -/
theorem probe_exit_code (t : Bool) (env : ProbeEnv) :
    env.parentIsDir = true →
    (t = true → env.tmpfsOk = true) →
    env.umountRootfsOk = true →
    (t = true → env.umountProbeOk = true) →
    ((probeInner t env = 0 ↔ (env.overlayOk = true ∧ env.renameOk = true))
      ∧ ((env.overlayOk = false ∨ env.renameOk = false) → probeInner t env = 1)
      ∧ probeSupervisor (probeInner t env * 256) = some (probeInner t env)) := by
  rcases env with ⟨p, tm, ov, rn, ur, up⟩
  cases t <;> cases p <;> cases tm <;> cases ov <;> cases rn <;>
    cases ur <;> cases up <;> decide

theorem probe_exit_code_witness :
    probeInner false ⟨true, true, true, true, true, true⟩ = 0
    ∧ probeInner false ⟨true, true, false, true, true, true⟩ = 1 := by
  have h1 := probe_exit_code false ⟨true, true, true, true, true, true⟩
    rfl (fun _ => rfl) rfl (fun _ => rfl)
  have h2 := probe_exit_code false ⟨true, true, false, true, true, true⟩
    rfl (fun _ => rfl) rfl (fun _ => rfl)
  exact ⟨h1.1.mpr ⟨rfl, rfl⟩, h2.2.1 (Or.inl rfl)⟩

/-- Claim C8 counterexample: distinct full paths sharing the leaf name
"foo" do NOT always yield distinct hashed basenames -- the 32-bit hash
collides, e.g. on "/fbu4/foo" and "/rmma/foo", which share the hash value
0xffc58bda and hence the exact same hashed basename. -/
theorem hashed_basename_collision :
    ("/fbu4/foo" : String) ≠ "/rmma/foo"
    ∧ basenameStr "/fbu4/foo" = "foo"
    ∧ basenameStr "/rmma/foo" = "foo"
    ∧ string_hash "/fbu4/foo" 0x5f3759df = string_hash "/rmma/foo" 0x5f3759df
    ∧ hashed_basename "/fbu4/foo" = hashed_basename "/rmma/foo" := by
  refine ⟨by decide, by decide, by decide, by decide, by decide⟩

/-- Claim C8 amended: hashed_basename("/a/foo") and hashed_basename
("/b/foo") are distinct and each is "foo-" followed by the lowercase hex
of the Murmur-style byte hash of the full path seeded with 0x5f3759df;
but distinct paths sharing a leaf yield distinct basenames only when
their 32-bit hashes differ (collisions exist). -/
theorem hashed_basename_distinct :
    hashed_basename "/a/foo" = "foo-6ec67072"
    ∧ hashed_basename "/b/foo" = "foo-b7814b2"
    ∧ hashed_basename "/a/foo" ≠ hashed_basename "/b/foo"
    ∧ string_hash "/a/foo" 0x5f3759df = 0x6ec67072
    ∧ string_hash "/b/foo" 0x5f3759df = 0xb7814b2
    ∧ hashed_basename "/a/foo" =
        basenameStr "/a/foo" ++ "-" ++ hexStr (string_hash "/a/foo" 0x5f3759df) := by
  refine ⟨by decide, by decide, by decide, by decide, by decide, rfl⟩

/-- Claim C9, code bug: on a stat failure with ENOENT or ENOTDIR, isdir
and islink do not return a guaranteed 0 -- they return
S_ISDIR/S_ISLNK of the UNINITIALIZED stack st_mode, so whenever the
leftover stack word carries directory/link mode bits the functions return
true for a nonexistent path.  Other stat errnos do abort as claimed. -/
theorem isdir_uninitialized_mode :
    isdir (StatOutcome.err ENOENT) 0x4000 = .ok true
    ∧ isdir (StatOutcome.err ENOTDIR) 0x4000 = .ok true
    ∧ isdir (StatOutcome.err ENOENT) 0 = .ok false
    ∧ islink (StatOutcome.err ENOENT) 0xA000 = .ok true
    ∧ isdir (StatOutcome.err 13) 0x4000 = .error 1
    ∧ islink (StatOutcome.err 13) 0 = .error 1 :=
  ⟨rfl, rfl, rfl, rfl, rfl, rfl⟩

theorem length_dropWhile_le (p : Char → Bool) (l : List Char) :
    (l.dropWhile p).length ≤ l.length := by
  induction l with
  | nil => simp
  | cons a l ih =>
    by_cases h : p a
    · rw [List.dropWhile_cons, if_pos h]
      simp
      omega
    · rw [List.dropWhile_cons, if_neg h]

theorem dropWhile_head_slash (l : List Char) (h : '/' ∈ l) :
    ∃ l2, l.dropWhile (· != '/') = '/' :: l2 := by
  induction l with
  | nil => simp at h
  | cons a l ih =>
    by_cases ha : a = '/'
    · refine ⟨l, ?_⟩
      subst ha
      simp [List.dropWhile_cons]
    · have h2 : '/' ∈ l := by
        rcases List.mem_cons.mp h with h1 | h1
        · exact absurd h1.symm ha
        · exact h1
      obtain ⟨l2, hl2⟩ := ih h2
      refine ⟨l2, ?_⟩
      rw [List.dropWhile_cons, if_pos (by simp [ha])]
      exact hl2

theorem dropTrailingSlashes_length_le (l : List Char) :
    (dropTrailingSlashes l).length ≤ l.length := by
  rw [dropTrailingSlashes]
  have := length_dropWhile_le (· == '/') l.reverse
  simpa using this

theorem dropLastComponent_then_strip_shrinks (t : List Char) (h : '/' ∈ t) :
    (dropTrailingSlashes (dropLastComponent t)).length < t.length := by
  obtain ⟨l2, hl2⟩ := dropWhile_head_slash t.reverse (by simpa using h)
  have hv : dropLastComponent t = ('/' :: l2).reverse := by
    rw [dropLastComponent, hl2]
  have hu : dropTrailingSlashes (dropLastComponent t) =
      (l2.dropWhile (· == '/')).reverse := by
    rw [hv, dropTrailingSlashes, List.reverse_reverse]
    rw [List.dropWhile_cons, if_pos (by simp)]
  have h1 : (l2.dropWhile (· == '/')).length ≤ l2.length :=
    length_dropWhile_le _ _
  have h2 : l2.length + 1 ≤ t.length := by
    have := length_dropWhile_le (· != '/') t.reverse
    rw [hl2] at this
    simpa using this
  rw [hu]
  simp
  omega

theorem dirnameL_fixed_or_shrinks (s : List Char) :
    isDirnameFixed (dirnameL s) = true ∨ (dirnameL s).length < s.length := by
  by_cases hs : '/' ∈ s
  · by_cases ht : dropTrailingSlashes s = []
    · left
      by_cases h2 : s.length = 2 <;>
        simp [dirnameL, hs, ht, h2, isDirnameFixed]
    · by_cases htc : '/' ∈ dropTrailingSlashes s
      · by_cases hu :
          dropTrailingSlashes (dropLastComponent (dropTrailingSlashes s)) = []
        · left
          have heq : dirnameL s =
              if dropLastComponent (dropTrailingSlashes s) = ['/', '/']
              then ['/', '/'] else ['/'] := by
            simp [dirnameL, hs, ht, htc, hu]
          rw [heq]
          by_cases hv : dropLastComponent (dropTrailingSlashes s) = ['/', '/'] <;>
            simp [hv, isDirnameFixed]
        · right
          have heq : dirnameL s =
              dropTrailingSlashes (dropLastComponent (dropTrailingSlashes s)) := by
            simp [dirnameL, hs, ht, htc, hu]
          rw [heq]
          calc (dropTrailingSlashes (dropLastComponent (dropTrailingSlashes s))).length
              < (dropTrailingSlashes s).length :=
                dropLastComponent_then_strip_shrinks _ htc
            _ ≤ s.length := dropTrailingSlashes_length_le s
      · left
        simp [dirnameL, hs, ht, htc, isDirnameFixed]
  · left
    simp [dirnameL, hs, isDirnameFixed]

theorem mkpathFuel_adequate (env : List Char → Bool)
    (h1 : env ['.'] = true) (h2 : env ['/'] = true)
    (h3 : env ['/', '/'] = true) :
    ∀ n s, (if isDirnameFixed s then 1 else s.length + 2) ≤ n →
      (mkpathFuel n env s).isSome = true := by
  intro n
  induction n with
  | zero =>
    intro s hs
    split at hs <;> omega
  | succ n ih =>
    intro s hs
    rw [mkpathFuel]
    cases he : env s with
    | true => simp
    | false =>
      have hnf : isDirnameFixed s = false := by
        cases hf : isDirnameFixed s
        · rfl
        · exfalso
          have hmem : (s = ['.'] ∨ s = ['/']) ∨ s = ['/', '/'] := by
            simpa [isDirnameFixed] using hf
          rcases hmem with (hx | hx) | hx <;> subst hx <;> simp_all
      have hs2 : s.length + 2 ≤ n + 1 := by
        rw [hnf] at hs
        simpa using hs
      simp only [he, Bool.false_eq_true, if_false]
      cases homk : mkpathFuel n env (dirnameL s) with
      | some l => simp
      | none =>
        exfalso
        have hrec : (mkpathFuel n env (dirnameL s)).isSome = true := by
          apply ih
          rcases dirnameL_fixed_or_shrinks s with hfix | hlen
          · rw [hfix]
            simp
            omega
          · split <;> omega
        rw [homk] at hrec
        simp at hrec

theorem mkpathFuel_root_none :
    ∀ n, mkpathFuel n (fun _ => false) ['/'] = none := by
  intro n
  induction n with
  | zero => rfl
  | succ n ih =>
    rw [mkpathFuel]
    rw [show dirnameL ['/'] = ['/'] from by decide, ih]
    rfl

/-- Claim C10 counterexample: mkpath does NOT terminate on every input
path.  dirname("/") is "/" itself and the recursive call precedes the
mkdir, so when opendir fails at "/" (e.g. EMFILE) the call mkpath("/")
recurses on itself forever: no recursion depth suffices. -/
theorem mkpath_diverges_without_root :
    ¬ mkpathTerminates (fun _ => false) ['/'] := by
  rintro ⟨n, hn⟩
  rw [mkpathFuel_root_none n] at hn
  simp at hn

/-- Claim C10 amended: the recursion of mkpath is well-founded because
glibc dirname maps every non-fixed path to a strictly shorter string or
to one of its fixed points ".", "/", "//"; so mkpath terminates on EVERY
input path provided opendir succeeds on those three fixed points (depth
length+2 always suffices).  If opendir fails at a fixed point, the
recursion diverges there, since the recursive call happens before mkdir
can resolve anything. -/
theorem mkpath_terminates_of_roots (env : List Char → Bool)
    (h1 : env ['.'] = true) (h2 : env ['/'] = true)
    (h3 : env ['/', '/'] = true) (s : List Char) :
    mkpathTerminates env s :=
  ⟨s.length + 2,
    mkpathFuel_adequate env h1 h2 h3 (s.length + 2) s (by split <;> omega)⟩

theorem mkpath_terminates_of_roots_witness :
    mkpathTerminates (fun _ => true) ['/', 't', 'm', 'p'] :=
  mkpath_terminates_of_roots (fun _ => true) rfl rfl rfl ['/', 't', 'm', 'p']

end Userns
